import Mathlib

/-!
Shallow embedding of the chart coordinate engine of the `lct-drone`
repository (`packages/ui/src/charts/lines`): the reactive store created by
`createState`, its derived computed values (`maxValue`, `axisValues`,
`segments`, `tooltip`), its actions (`updateIdDataset`, `updateFilterLegend`),
the coordinate helper `useAdjustCoordinates`, and the event throttle
`useThrottle`.

JavaScript numbers are modelled as rationals (`ℚ`); nullable values as
`Option`; the ES `Map` built from a list of key/value pairs is modelled by a
last-binding-wins fold; the index parameter of `Array.prototype.map` by
`List.mapIdx`; `Array.prototype.reduce` by `List.foldl` over `List.enum`.
-/

namespace ChartLines

/-- A screen coordinate (`{ x: number; y: number }`). -/
structure Coord where
  x : ℚ
  y : ℚ
  deriving DecidableEq, Repr, Inhabited

/-- A legend entry (`{ color: string; name: string }`). -/
structure Legend where
  name : String
  color : String
  deriving DecidableEq, Repr, Inhabited

/-- One metric of a dataset: `{ id?: number|string; name: string; percents }`.
The `percents` entries are nullable numbers (the code checks `percent === null`). -/
structure Metric where
  id : Option String
  name : String
  percents : List (Option ℚ)
  deriving DecidableEq, Repr, Inhabited

/-- A dataset: `{ id: number|string; name: string; metrics }`. -/
structure Dataset where
  id : String
  name : String
  metrics : List Metric
  deriving DecidableEq, Repr, Inhabited

/-- One entry of `Segment.pathCoords`: `{ start, end }`, each end possibly the
null coordinate `{x: null, y: null}` (modelled as `none`). -/
structure PathCoord where
  start : Option Coord
  «end» : Option Coord
  deriving DecidableEq, Repr, Inhabited

/-- A derived per-metric polyline (`Segment` in `types/index.ts`). -/
structure Segment where
  id : String
  name : String
  color : String
  pointCoords : List (Option Coord)
  pathCoords : List PathCoord
  deriving DecidableEq, Repr, Inhabited

/-- Model of `reactiveState.hoveredSegment`: `{ id: number; name: string }` where `id`
is the hovered column index. -/
structure HoveredSegment where
  id : Nat
  name : String
  deriving DecidableEq, Repr, Inhabited

/-- One entry of the tooltip's `metrics` list. -/
structure TooltipMetric where
  name : String
  percent : Option ℚ
  color : String
  deriving DecidableEq, Repr, Inhabited

/-- The tooltip payload (`Tooltip` in `types/index.ts`). -/
structure Tooltip where
  name : String
  metrics : List TooltipMetric
  position : Coord
  deriving DecidableEq, Repr, Inhabited

/-- Type `InitialValue` from `types/index.ts`: the immutable configuration handed
to `createState`. -/
structure InitialValue where
  columns : Nat
  columnLabels : List String
  legends : List Legend
  datasetLabel : String
  datasets : List Dataset
  deriving DecidableEq, Repr, Inhabited

/-- Type `ReactiveState` from `types/index.ts`: the mutable reactive store. -/
structure ReactiveState where
  axisYOrigin : Option ℚ
  columnsCoords : Option (List Coord)
  mouseCoords : Coord
  hoveredSegment : Option HoveredSegment
  highlightSegment : Option String
  filterIdDataset : String
  filterLegends : List Legend
  deriving DecidableEq, Repr, Inhabited

/-- The initial reactive state built in `createState`: `axisYOrigin: null`,
`columnsCoords: null`, `mouseCoords: {x: -1, y: -1}`, no hovered/highlight
segment, `filterIdDataset: initialValue.datasets[0].id`,
`filterLegends: initialValue.legends.slice(0, 5)`. -/
def createReactiveState (initialValue : InitialValue) : ReactiveState where
  axisYOrigin := none
  columnsCoords := none
  mouseCoords := { x := -1, y := -1 }
  hoveredSegment := none
  highlightSegment := none
  filterIdDataset := initialValue.datasets.headI.id
  filterLegends := initialValue.legends.take 5

/-- Model of `new Map(initialValue.datasets.map(d => [d.id, d])).get(id)`: the last
binding for a key wins, as for an ES `Map` built from a pair list. -/
def mapGetDataset (datasets : List Dataset) (id : String) : Option Dataset :=
  datasets.foldl (fun acc dataset => if dataset.id = id then some dataset else acc) none

/-- Model of `new Map(initialValue.legends.map(l => [l.name, l])).get(name)`. -/
def mapGetLegend (legends : List Legend) (name : String) : Option Legend :=
  legends.foldl (fun acc legend => if legend.name = name then some legend else acc) none

/-- The series colour `legends.get(name)?.color` with default `#000000`. -/
def legendColor (legends : List Legend) (name : String) : String :=
  ((mapGetLegend legends name).map Legend.color).getD "#000000"

/-- Constant `minValue = 0`. -/
def minValue : ℤ := 0

/-- Predicate `isMetricFiltered(metricName)`:
`reactiveState.filterLegends.some(legend => legend.name === metricName)`. -/
def isMetricFiltered (rs : ReactiveState) (metricName : String) : Bool :=
  rs.filterLegends.any (fun legend => legend.name == metricName)

/-- The local `values` of the `maxValue` computed property: the non-null
percents of the metrics currently selected by the legend filter
(`dataset.metrics.flatMap(metric => isSelected ? metric.percents.filter(p => p !== null) : [])`). -/
def visibleValues (rs : ReactiveState) (dataset : Dataset) : List ℚ :=
  dataset.metrics.flatMap (fun metric =>
    if rs.filterLegends.any (fun legend => legend.name == metric.name) then
      metric.percents.filterMap id
    else [])

/-- The `maxValue` computed property: `100` when the active dataset id is not
in the dataset map or no visible non-null value exists, otherwise
`Math.max(...values)`. -/
def maxValue (cfg : InitialValue) (rs : ReactiveState) : ℚ :=
  match mapGetDataset cfg.datasets rs.filterIdDataset with
  | none => 100
  | some dataset =>
    match visibleValues rs dataset with
    | [] => 100
    | v :: vs => vs.foldl max v

/-- The `axisValues` computed property:
`[ceil(max), ceil(3*max/4), ceil(2*max/4), ceil(max/4), minValue]`. -/
def axisValues (cfg : InitialValue) (rs : ReactiveState) : List ℤ :=
  [Int.ceil (maxValue cfg rs),
   Int.ceil ((3 * maxValue cfg rs) / 4),
   Int.ceil ((2 * maxValue cfg rs) / 4),
   Int.ceil (maxValue cfg rs / 4),
   minValue]

/-- The `axis` argument of `useAdjustCoordinates`. -/
inductive Axis where
  | x
  | y
  deriving DecidableEq, Repr

/-- The argument record of `useAdjustCoordinates`. -/
structure AdjustCoordinates where
  x : ℚ
  y : ℚ
  center : ℚ
  axis : Axis
  deriving DecidableEq, Repr

/-- Function `useAdjustCoordinates` from `useMouseCoords.ts`:
`adjust(c) = center - (c / 100) * center`, applied to the coordinate selected
by `axis`. -/
def useAdjustCoordinates (p : AdjustCoordinates) : Coord :=
  let adjust : ℚ → ℚ := fun coordinate => p.center - (coordinate / 100) * p.center
  match p.axis with
  | Axis.x => { x := adjust p.x, y := p.y }
  | Axis.y => { x := p.x, y := adjust p.y }

/-- The `pointCoords` local of the `segments` computed property: for each
percent (with its index `j`), `null` maps to the null coordinate, otherwise
`useAdjustCoordinates({x: columnsCoords[j].x, y: (percent / maxValue) * 100,
center: axisYOrigin ?? 0, axis: 'y'})`. The parameters `cols`, `origin` and
`maxV` stand for `columnsCoords!`, `axisYOrigin ?? 0` and `maxValue.value`. -/
def mkPointCoords (cols : List Coord) (origin maxV : ℚ) (percents : List (Option ℚ)) :
    List (Option Coord) :=
  percents.mapIdx (fun j percent =>
    match percent with
    | none => none
    | some p =>
      let normalizedPercent := (p / maxV) * 100
      some (useAdjustCoordinates
        { x := (cols.getD j default).x
          y := normalizedPercent
          center := origin
          axis := Axis.y }))

/-- The `pathCoords` local of the `segments` computed property:
`pointCoords.slice(0, -1).map((coord, j) => ({start: coord, end: pointCoords[j+1]}))`. -/
def mkPathCoords (pointCoords : List (Option Coord)) : List PathCoord :=
  pointCoords.dropLast.mapIdx (fun j coord =>
    { start := coord, «end» := pointCoords.getD (j + 1) none })

/-- The segment record pushed by the `segments` reducer for visible metric
number `i`: fallback id `` `${i}-${dataset.id}-${dataset.name}` ``, the
metric's name, its legend colour (default `#000000`), and the point/path
coordinates. -/
def mkSegment (legends : List Legend) (cols : List Coord) (origin maxV : ℚ)
    (dataset : Dataset) (i : Nat) (metric : Metric) : Segment :=
  let pointCoords := mkPointCoords cols origin maxV metric.percents
  { id := metric.id.getD (toString i ++ "-" ++ dataset.id ++ "-" ++ dataset.name)
    name := metric.name
    color := legendColor legends metric.name
    pointCoords := pointCoords
    pathCoords := mkPathCoords pointCoords }

/-- The `segments` computed property: `null` when `columnsCoords` is null or
the active dataset id is not in the dataset map; otherwise the reduce over
`dataset.metrics` that pushes a segment for each metric passing
`isMetricFiltered`. -/
def segments (cfg : InitialValue) (rs : ReactiveState) : Option (List Segment) :=
  match rs.columnsCoords with
  | none => none
  | some cols =>
    match mapGetDataset cfg.datasets rs.filterIdDataset with
    | none => none
    | some dataset =>
      some (dataset.metrics.enum.foldl
        (fun acc p =>
          if isMetricFiltered rs p.2.name then
            acc ++ [mkSegment cfg.legends cols (rs.axisYOrigin.getD 0) (maxValue cfg rs)
              dataset p.1 p.2]
          else acc)
        [])

/-- The `tooltip` computed property: `null` unless `columnsCoords` and
`hoveredSegment` are set and the active dataset exists; otherwise the hovered
segment's name, one entry per visible metric with its value at the hovered
column index and its legend colour, and the hovered column's position. -/
def tooltip (cfg : InitialValue) (rs : ReactiveState) : Option Tooltip :=
  match rs.columnsCoords, rs.hoveredSegment with
  | some cols, some hovered =>
    match mapGetDataset cfg.datasets rs.filterIdDataset with
    | none => none
    | some dataset =>
      some
        { name := hovered.name
          metrics := (dataset.metrics.filter (fun metric => isMetricFiltered rs metric.name)).map
            (fun metric =>
              { name := metric.name
                percent := metric.percents.getD hovered.id none
                color := legendColor cfg.legends metric.name })
          position := cols.getD hovered.id default }
  | _, _ => none

/-- Action `updateIdDataset`: sets `filterIdDataset`. -/
def updateIdDataset (rs : ReactiveState) (id : String) : ReactiveState :=
  { rs with filterIdDataset := id }

/-- Action `updateFilterLegend(name)`: toggles `name` in the set of filtered
legend names, then rebuilds `filterLegends` as
`state.legends.filter(legend => setLegends.has(legend.name))`. -/
def updateFilterLegend (cfg : InitialValue) (rs : ReactiveState) (name : String) :
    ReactiveState :=
  let setLegends := rs.filterLegends.map Legend.name
  let setLegends' :=
    if name ∈ setLegends then setLegends.filter (fun n => n != name)
    else setLegends ++ [name]
  { rs with filterLegends := cfg.legends.filter (fun legend => legend.name ∈ setLegends') }

/-- One call of the closure returned by `useThrottle(fn, wait)`: given the
captured `lastTime` and the current `Date.now()`, the wrapped function fires
iff `now - lastTime >= wait`, and `lastTime` is then set to `now`. -/
def useThrottleStep (wait lastTime now : ℤ) : Bool × ℤ :=
  if now - lastTime ≥ wait then (true, now) else (false, lastTime)

/-- Feeding a sequence of call timestamps through the throttled closure
(initial `lastTime = 0`): for each call, whether the wrapped function was
invoked. -/
def useThrottleRun (wait : ℤ) (lastTime : ℤ) : List ℤ → List Bool
  | [] => []
  | now :: rest =>
    let step := useThrottleStep wait lastTime now
    step.1 :: useThrottleRun wait step.2 rest

/-! Concrete instances used by witnesses and counterexamples. -/

/-- A configuration with no datasets and no legends. -/
def emptyCfg : InitialValue :=
  { columns := 0
    columnLabels := []
    legends := []
    datasetLabel := ""
    datasets := [] }

/-- A reactive state with no layout measurements and a dataset id that is in
no dataset map. -/
def nullRs : ReactiveState :=
  { axisYOrigin := none
    columnsCoords := none
    mouseCoords := { x := -1, y := -1 }
    hoveredSegment := none
    highlightSegment := none
    filterIdDataset := "missing"
    filterLegends := [] }

/-- Legend "A" (red). -/
def legA : Legend := { name := "A", color := "red" }

/-- Legend "B" (blue). -/
def legB : Legend := { name := "B", color := "blue" }

/-- Metric "A" with the single value 100. -/
def metricA : Metric := { id := some "mA", name := "A", percents := [some 100] }

/-- Metric "B" with the single value 50. -/
def metricB : Metric := { id := some "mB", name := "B", percents := [some 50] }

/-- A metric with a null value between two non-null ones. -/
def metricGap : Metric := { id := none, name := "G", percents := [some 1, none, some 2] }

/-- A one-column dataset with metrics "A" and "B". -/
def dsC1 : Dataset := { id := "d", name := "D", metrics := [metricA, metricB] }

/-- A configuration with legends "A" and "B" and the dataset `dsC1`. -/
def cfgC1 : InitialValue :=
  { columns := 1
    columnLabels := ["Jan"]
    legends := [legA, legB]
    datasetLabel := "ds"
    datasets := [dsC1] }

/-- A fully measured state over `cfgC1`: one column at x = 10, axis origin
200, column 0 hovered, both legends active. -/
def rsC1 : ReactiveState :=
  { axisYOrigin := some 200
    columnsCoords := some [{ x := 10, y := 0 }]
    mouseCoords := { x := -1, y := -1 }
    hoveredSegment := some { id := 0, name := "Jan" }
    highlightSegment := none
    filterIdDataset := "d"
    filterLegends := [legA, legB] }

/-! Helper lemmas. -/

/-- A `reduce` that pushes `f x` for each `x` passing `p` is `filter` followed
by `map`. -/
theorem foldl_push_filter {α β : Type} (p : α → Bool) (f : α → β) :
    ∀ (l : List α) (init : List β),
      l.foldl (fun acc x => if p x then acc ++ [f x] else acc) init
        = init ++ (l.filter p).map f := by
  intro l
  induction l with
  | nil => intro init; simp
  | cons a l ih =>
    intro init
    cases hpa : p a with
    | true => simp [List.foldl_cons, hpa, ih, List.filter_cons]
    | false => simp [List.foldl_cons, hpa, ih, List.filter_cons]

/-- Closed form of `segments` when the layout is measured and the active
dataset exists. -/
theorem segments_eq (cfg : InitialValue) (rs : ReactiveState) (cols : List Coord)
    (ds : Dataset) (hcols : rs.columnsCoords = some cols)
    (hds : mapGetDataset cfg.datasets rs.filterIdDataset = some ds) :
    segments cfg rs =
      some ((ds.metrics.enum.filter (fun q => isMetricFiltered rs q.2.name)).map
        (fun q => mkSegment cfg.legends cols (rs.axisYOrigin.getD 0) (maxValue cfg rs)
          ds q.1 q.2)) := by
  simp only [segments, hcols, hds]
  rw [foldl_push_filter]
  simp

/-- The value `Math.max(...vs)` (a left fold) is an element of the list. -/
theorem foldl_max_mem : ∀ (vs : List ℚ) (v : ℚ), vs.foldl max v ∈ v :: vs := by
  intro vs
  induction vs with
  | nil => intro v; simp
  | cons a vs ih =>
    intro v
    rw [List.foldl_cons]
    rcases List.mem_cons.mp (ih (max v a)) with h1 | h1
    · rcases le_total v a with hva | hva
      · rw [h1, max_eq_right hva]
        exact List.mem_cons.mpr (Or.inr (List.mem_cons_self a vs))
      · rw [h1, max_eq_left hva]
        exact List.mem_cons_self v _
    · exact List.mem_cons.mpr (Or.inr (List.mem_cons.mpr (Or.inr h1)))

/-- The value `Math.max(...vs)` (a left fold) bounds every element of the list. -/
theorem le_foldl_max : ∀ (vs : List ℚ) (v x : ℚ), x ∈ v :: vs → x ≤ vs.foldl max v := by
  intro vs
  induction vs with
  | nil =>
    intro v x hx
    simp at hx
    simp [hx]
  | cons a vs ih =>
    intro v x hx
    rw [List.foldl_cons]
    rcases List.mem_cons.mp hx with h1 | h1
    · rw [h1]
      exact le_trans (le_max_left v a) (ih (max v a) (max v a) (List.mem_cons_self _ _))
    · rcases List.mem_cons.mp h1 with h2 | h2
      · rw [h2]
        exact le_trans (le_max_right v a) (ih (max v a) (max v a) (List.mem_cons_self _ _))
      · exact ih (max v a) x (List.mem_cons.mpr (Or.inr h2))

/-! Claim theorems. -/

/-- Claim C7: `updateFilterLegend` changes only the `filterLegends` field of
the reactive state; the active dataset id, mouse coordinates, hovered segment,
highlight segment, axis origin and column coordinates are untouched. -/
theorem updateFilterLegend_frame (cfg : InitialValue) (rs : ReactiveState) (name : String) :
    (updateFilterLegend cfg rs name).filterIdDataset = rs.filterIdDataset ∧
    (updateFilterLegend cfg rs name).mouseCoords = rs.mouseCoords ∧
    (updateFilterLegend cfg rs name).hoveredSegment = rs.hoveredSegment ∧
    (updateFilterLegend cfg rs name).highlightSegment = rs.highlightSegment ∧
    (updateFilterLegend cfg rs name).axisYOrigin = rs.axisYOrigin ∧
    (updateFilterLegend cfg rs name).columnsCoords = rs.columnsCoords :=
  ⟨rfl, rfl, rfl, rfl, rfl, rfl⟩

/-- Claim C5: when layout measurements are absent the derived computed state
is `null` rather than an error: `segments` is `null` whenever `columnsCoords`
is `null`, and `tooltip` is `null` whenever `columnsCoords` or
`hoveredSegment` is `null`. -/
theorem derived_state_null (cfg : InitialValue) (rs : ReactiveState) :
    (rs.columnsCoords = none → segments cfg rs = none) ∧
    (rs.columnsCoords = none ∨ rs.hoveredSegment = none → tooltip cfg rs = none) := by
  refine ⟨fun h => ?_, fun h => ?_⟩
  · simp [segments, h]
  · rcases h with h | h
    · simp [tooltip, h]
    · rw [tooltip.eq_def, h]
      rcases rs.columnsCoords with _ | cols <;> rfl

/-- Witness for C5 at a concrete unmeasured state. -/
theorem derived_state_null_witness :
    nullRs.columnsCoords = none ∧ segments emptyCfg nullRs = none ∧
      tooltip emptyCfg nullRs = none :=
  ⟨rfl, (derived_state_null emptyCfg nullRs).1 rfl,
    (derived_state_null emptyCfg nullRs).2 (Or.inl rfl)⟩

/-- Claim C9: when the active dataset id is absent from the dataset map, or no
visible metric has a non-null value, the normalization maximum defaults to 100
and the axis labels are `[100, 75, 50, 25, 0]`. -/
theorem maxValue_default (cfg : InitialValue) (rs : ReactiveState)
    (h : mapGetDataset cfg.datasets rs.filterIdDataset = none ∨
      ∃ ds, mapGetDataset cfg.datasets rs.filterIdDataset = some ds ∧
        visibleValues rs ds = []) :
    maxValue cfg rs = 100 ∧ axisValues cfg rs = [100, 75, 50, 25, 0] := by
  have hmax : maxValue cfg rs = 100 := by
    rcases h with h | ⟨ds, hds, hvals⟩
    · simp [maxValue, h]
    · simp [maxValue, hds, hvals]
  refine ⟨hmax, ?_⟩
  simp only [axisValues, hmax, minValue]
  norm_num

/-- The pool of values feeding `maxValue` holds exactly the non-null percents
of the metrics passing the legend filter. -/
theorem mem_visibleValues (rs : ReactiveState) (ds : Dataset) (x : ℚ) :
    x ∈ visibleValues rs ds ↔
      ∃ metric ∈ ds.metrics, isMetricFiltered rs metric.name = true ∧
        some x ∈ metric.percents := by
  constructor
  · intro hx
    rcases List.mem_flatMap.mp hx with ⟨m, hm, hxm⟩
    by_cases hsel : (rs.filterLegends.any fun legend => legend.name == m.name) = true
    · rw [if_pos hsel] at hxm
      rcases List.mem_filterMap.mp hxm with ⟨o, ho, hox⟩
      rw [id_eq] at hox
      exact ⟨m, hm, hsel, hox ▸ ho⟩
    · rw [if_neg hsel] at hxm
      exact absurd hxm (List.not_mem_nil x)
  · rintro ⟨m, hm, hsel, hxp⟩
    refine List.mem_flatMap.mpr ⟨m, hm, ?_⟩
    have hsel2 : (rs.filterLegends.any fun legend => legend.name == m.name) = true := hsel
    rw [if_pos hsel2]
    exact List.mem_filterMap.mpr ⟨some x, hxp, rfl⟩

/-- Claim C4: after `updateIdDataset`, the normalization maximum is the
maximum of the non-null values of exactly the metrics of the newly selected
dataset that pass the current legend filter: it is one of those values, it
bounds all of them, and the value pool contains precisely the non-null
percents of the filtered metrics (invisible series contribute nothing). -/
theorem updateIdDataset_maxValue (cfg : InitialValue) (rs : ReactiveState) (newId : String)
    (ds : Dataset) (hds : mapGetDataset cfg.datasets newId = some ds)
    (hne : visibleValues rs ds ≠ []) :
    maxValue cfg (updateIdDataset rs newId) ∈ visibleValues rs ds ∧
    (∀ v ∈ visibleValues rs ds, v ≤ maxValue cfg (updateIdDataset rs newId)) ∧
    (∀ v : ℚ, v ∈ visibleValues rs ds ↔
      ∃ metric ∈ ds.metrics, isMetricFiltered rs metric.name = true ∧
        some v ∈ metric.percents) := by
  rcases hv : visibleValues rs ds with _ | ⟨v, vs⟩
  · exact absurd hv hne
  · have hds2 : mapGetDataset cfg.datasets (updateIdDataset rs newId).filterIdDataset
        = some ds := hds
    have hv2 : visibleValues (updateIdDataset rs newId) ds = v :: vs := hv
    have hmax : maxValue cfg (updateIdDataset rs newId) = vs.foldl max v := by
      simp only [maxValue, hds2, hv2]
    refine ⟨?_, ?_, ?_⟩
    · rw [hmax]
      exact foldl_max_mem vs v
    · intro x hx
      rw [hmax]
      exact le_foldl_max vs v x hx
    · intro x
      exact hv ▸ mem_visibleValues rs ds x

/-- Witness for C9: a state whose dataset id is not in the dataset map. -/
theorem maxValue_default_witness :
    mapGetDataset emptyCfg.datasets nullRs.filterIdDataset = none ∧
      maxValue emptyCfg nullRs = 100 ∧
      axisValues emptyCfg nullRs = [100, 75, 50, 25, 0] :=
  ⟨rfl, maxValue_default emptyCfg nullRs (Or.inl rfl)⟩

/-- Each `updateFilterLegend` call leaves `filterLegends` a sublist of the
configured legends, whatever the previous state was. -/
theorem foldl_updateFilterLegend_sublist (cfg : InitialValue) (names : List String) :
    ∀ rs : ReactiveState, rs.filterLegends.Sublist cfg.legends →
      (names.foldl (fun s n => updateFilterLegend cfg s n) rs).filterLegends.Sublist
        cfg.legends := by
  induction names with
  | nil => exact fun rs h => h
  | cons n ns ih =>
    intro rs h
    rw [List.foldl_cons]
    exact ih _ (List.filter_sublist _)

/-- Claim C10: starting from the initial state (legend filter =
`legends.slice(0, 5)`), after any sequence of `updateFilterLegend` calls the
legend filter is a subsequence of the configured legends in their original
order (so re-enabling a legend reinserts it at its original position), and —
as long as the configured legend names are distinct — it is duplicate-free. -/
theorem filterLegends_invariant (cfg : InitialValue) (names : List String)
    (hnodup : (cfg.legends.map Legend.name).Nodup) :
    ((names.foldl (fun s n => updateFilterLegend cfg s n)
      (createReactiveState cfg)).filterLegends).Sublist cfg.legends ∧
    (((names.foldl (fun s n => updateFilterLegend cfg s n)
      (createReactiveState cfg)).filterLegends).map Legend.name).Nodup := by
  have hsub := foldl_updateFilterLegend_sublist cfg names (createReactiveState cfg)
    (List.take_sublist 5 cfg.legends)
  exact ⟨hsub, (hsub.map Legend.name).nodup hnodup⟩

/-- Witness for C10: three toggles on a two-legend configuration. -/
theorem filterLegends_invariant_witness :
    (([{ name := "A", color := "red" }, { name := "B", color := "blue" }].map
      Legend.name).Nodup : Prop) ∧
    ((["B", "A", "B"].foldl
      (fun s n =>
        updateFilterLegend
          { columns := 0, columnLabels := [], legends := [{ name := "A", color := "red" },
            { name := "B", color := "blue" }], datasetLabel := "", datasets := [] } s n)
      (createReactiveState
        { columns := 0, columnLabels := [], legends := [{ name := "A", color := "red" },
          { name := "B", color := "blue" }], datasetLabel := "", datasets := [] })).filterLegends).Sublist
      [{ name := "A", color := "red" }, { name := "B", color := "blue" }] :=
  ⟨by decide,
    (filterLegends_invariant
      { columns := 0, columnLabels := [], legends := [{ name := "A", color := "red" },
        { name := "B", color := "blue" }], datasetLabel := "", datasets := [] }
      ["B", "A", "B"] (by decide)).1⟩

/-- Calls whose timestamps stay within `wait` of the captured `lastTime` never
fire and leave `lastTime` unchanged. -/
theorem useThrottleRun_no_fire (wait L : ℤ) :
    ∀ (ts rest : List ℤ), (∀ m ∈ ts, m - L < wait) →
      useThrottleRun wait L (ts ++ rest)
        = ts.map (fun _ => false) ++ useThrottleRun wait L rest := by
  intro ts
  induction ts with
  | nil =>
    intro rest h
    simp
  | cons m ms ih =>
    intro rest h
    have hm : m - L < wait := h m (List.mem_cons_self m ms)
    have hstep : useThrottleStep wait L m = (false, L) := by
      simp [useThrottleStep, not_le.mpr hm]
    simp only [List.cons_append, useThrottleRun, hstep, List.map_cons]
    rw [List.append_eq, ih rest (fun x hx => h x (List.mem_cons.mpr (Or.inr hx)))]

/-- Claim C8 (amended): if a call to the throttled handler at time `t` invokes
the wrapped function, then any later call at time `t'` with `t' - t < wait`
does not invoke it, whatever calls happen in between (each of which occurs no
later than `t'`). -/
theorem useThrottle_amended (wait lastTime t t' : ℤ) (mid post : List ℤ)
    (hfire : t - lastTime ≥ wait)
    (hmid : ∀ m ∈ mid, m ≤ t')
    (hlt : t' - t < wait) :
    useThrottleRun wait lastTime (t :: (mid ++ t' :: post))
      = true :: (mid.map (fun _ => false) ++ false :: useThrottleRun wait t post) := by
  have hstep : useThrottleStep wait lastTime t = (true, t) := by
    simp [useThrottleStep, hfire]
  have hmid2 : ∀ m ∈ mid, m - t < wait := fun m hm =>
    lt_of_le_of_lt (sub_le_sub_right (hmid m hm) t) hlt
  have hstep2 : useThrottleStep wait t t' = (false, t) := by
    simp [useThrottleStep, not_le.mpr hlt]
  simp only [useThrottleRun, hstep]
  rw [useThrottleRun_no_fire wait t mid (t' :: post) hmid2]
  simp only [useThrottleRun, hstep2]

/-- Counterexample to C8 as stated: with `wait = 100` and handler calls at
times 200, 250 and 320, the calls at 250 and 320 are less than 100 ms apart,
yet the call at 320 still invokes the wrapped function (the throttle compares
against the time of the last invocation, not of the last call). -/
theorem useThrottle_counterexample :
    useThrottleRun 100 0 [200, 250, 320] = [true, false, true] ∧ (320 : ℤ) - 250 < 100 := by
  constructor
  · rfl
  · decide

/-- Witness for the amended C8: calls at 200, 250, 270 with `wait = 100`. -/
theorem useThrottle_amended_witness :
    (200 : ℤ) - 0 ≥ 100 ∧ (∀ m ∈ [(250 : ℤ)], m ≤ 270) ∧ (270 : ℤ) - 200 < 100 ∧
      useThrottleRun 100 0 [200, 250, 270] = [true, false, false] :=
  ⟨by decide, by decide, by decide,
    useThrottle_amended 100 0 200 270 [250] [] (by decide) (by decide) (by decide)⟩

/-- Claim C3: a null percent at index `j` yields the null point coordinate at
`j` (a gap, never an interpolated value), and both path entries adjacent to
`j` — the one ending at `j` and the one starting at `j` — carry a null end
resp. start coordinate, so no path segment crosses the null. -/
theorem segment_null_gap (legends : List Legend) (cols : List Coord) (origin maxV : ℚ)
    (ds : Dataset) (i : Nat) (metric : Metric) (j : Nat)
    (hj : metric.percents[j]? = some none) :
    (mkSegment legends cols origin maxV ds i metric).pointCoords[j]? = some none ∧
    (∀ pe, (mkSegment legends cols origin maxV ds i metric).pathCoords[j]? = some pe →
      pe.start = none) ∧
    (∀ j2 pe, j = j2 + 1 →
      (mkSegment legends cols origin maxV ds i metric).pathCoords[j2]? = some pe →
      pe.«end» = none) := by
  have hpcs : (mkSegment legends cols origin maxV ds i metric).pointCoords
      = mkPointCoords cols origin maxV metric.percents := rfl
  have hpath : (mkSegment legends cols origin maxV ds i metric).pathCoords
      = mkPathCoords (mkPointCoords cols origin maxV metric.percents) := rfl
  have hpt : (mkPointCoords cols origin maxV metric.percents)[j]? = some none := by
    simp [mkPointCoords, hj]
  refine ⟨hpcs ▸ hpt, ?_, ?_⟩
  · intro pe hpe
    rw [hpath] at hpe
    simp only [mkPathCoords, List.getElem?_mapIdx] at hpe
    rw [List.getElem?_dropLast] at hpe
    split at hpe
    · rw [hpt] at hpe
      simp only [Option.map_some'] at hpe
      cases hpe
      rfl
    · simp at hpe
  · intro j2 pe hj2 hpe
    rw [hpath] at hpe
    simp only [mkPathCoords, List.getElem?_mapIdx] at hpe
    rw [List.getElem?_dropLast] at hpe
    split at hpe
    · rcases hc : (mkPointCoords cols origin maxV metric.percents)[j2]? with _ | c
      · rw [hc] at hpe
        simp at hpe
      · rw [hc] at hpe
        simp only [Option.map_some'] at hpe
        cases hpe
        show (mkPointCoords cols origin maxV metric.percents).getD (j2 + 1) none = none
        rw [List.getD_eq_getElem?_getD, ← hj2, hpt]
        rfl
    · simp at hpe

/-- Witness for C3: a metric whose percents are `[1, null, 2]`, null at
index 1. -/
theorem segment_null_gap_witness :
    metricGap.percents[1]? = some none ∧
    ((mkSegment [legA] [{ x := 10, y := 0 }] 200 100 dsC1 0 metricGap).pointCoords[1]?
        = some none ∧
      (∀ pe,
        (mkSegment [legA] [{ x := 10, y := 0 }] 200 100 dsC1 0 metricGap).pathCoords[1]?
          = some pe → pe.start = none) ∧
      (∀ j2 pe, 1 = j2 + 1 →
        (mkSegment [legA] [{ x := 10, y := 0 }] 200 100 dsC1 0 metricGap).pathCoords[j2]?
          = some pe → pe.«end» = none)) :=
  ⟨rfl, segment_null_gap [legA] [{ x := 10, y := 0 }] 200 100 dsC1 0 metricGap 1 rfl⟩

/-- Claim C6: with a hovered segment and measured columns, the tooltip holds
the hovered series name and exactly one entry per metric passing the legend
filter, carrying that metric's name, its value at the hovered column index,
and its legend colour. -/
theorem tooltip_payload (cfg : InitialValue) (rs : ReactiveState) (cols : List Coord)
    (hovered : HoveredSegment) (ds : Dataset)
    (hcols : rs.columnsCoords = some cols)
    (hhov : rs.hoveredSegment = some hovered)
    (hds : mapGetDataset cfg.datasets rs.filterIdDataset = some ds) :
    ∃ t, tooltip cfg rs = some t ∧
      t.name = hovered.name ∧
      (∀ tm ∈ t.metrics, ∃ metric ∈ ds.metrics,
        isMetricFiltered rs metric.name = true ∧ tm.name = metric.name ∧
        tm.percent = metric.percents.getD hovered.id none ∧
        tm.color = legendColor cfg.legends metric.name) ∧
      (∀ metric ∈ ds.metrics, isMetricFiltered rs metric.name = true →
        ({ name := metric.name
           percent := metric.percents.getD hovered.id none
           color := legendColor cfg.legends metric.name } : TooltipMetric) ∈ t.metrics) := by
  have ht : tooltip cfg rs = some
      { name := hovered.name
        metrics := (ds.metrics.filter (fun metric => isMetricFiltered rs metric.name)).map
          (fun metric =>
            { name := metric.name
              percent := metric.percents.getD hovered.id none
              color := legendColor cfg.legends metric.name })
        position := cols.getD hovered.id default } := by
    rw [tooltip.eq_def, hcols, hhov, hds]
  refine ⟨_, ht, rfl, ?_, ?_⟩
  · intro tm htm
    obtain ⟨m, hmf, rfl⟩ := List.mem_map.mp htm
    obtain ⟨hm, hp⟩ := List.mem_filter.mp hmf
    exact ⟨m, hm, hp, rfl, rfl, rfl⟩
  · intro m hm hp
    exact List.mem_map_of_mem _ (List.mem_filter.mpr ⟨hm, hp⟩)

/-- Witness for C6: hovered column 0 over `cfgC1`. -/
theorem tooltip_payload_witness :
    rsC1.columnsCoords = some [{ x := 10, y := 0 }] ∧
    rsC1.hoveredSegment = some { id := 0, name := "Jan" } ∧
    mapGetDataset cfgC1.datasets rsC1.filterIdDataset = some dsC1 ∧
    (∃ t, tooltip cfgC1 rsC1 = some t ∧
      t.name = HoveredSegment.name { id := 0, name := "Jan" } ∧
      (∀ tm ∈ t.metrics, ∃ metric ∈ dsC1.metrics,
        isMetricFiltered rsC1 metric.name = true ∧ tm.name = metric.name ∧
        tm.percent = metric.percents.getD 0 none ∧
        tm.color = legendColor cfgC1.legends metric.name) ∧
      (∀ metric ∈ dsC1.metrics, isMetricFiltered rsC1 metric.name = true →
        ({ name := metric.name
           percent := metric.percents.getD 0 none
           color := legendColor cfgC1.legends metric.name } : TooltipMetric) ∈ t.metrics)) :=
  ⟨rfl, rfl, rfl,
    tooltip_payload cfgC1 rsC1 [{ x := 10, y := 0 }] { id := 0, name := "Jan" } dsC1
      rfl rfl rfl⟩

/-- Claim C2: for a visible metric of the active dataset with non-null value
`v` at column `j`, given measured columns and a set axis origin, the computed
point pairs the column's x pixel position with
`origin - ((v / max) * 100 / 100) * origin`: the value as a percentage of the
visible maximum, converted to a vertical offset from the axis origin. -/
theorem segments_point_formula (cfg : InitialValue) (rs : ReactiveState) (cols : List Coord)
    (origin : ℚ) (ds : Dataset) (metric : Metric) (i j : Nat) (v : ℚ)
    (hcols : rs.columnsCoords = some cols)
    (horigin : rs.axisYOrigin = some origin)
    (hds : mapGetDataset cfg.datasets rs.filterIdDataset = some ds)
    (hm : ds.metrics[i]? = some metric)
    (hvis : isMetricFiltered rs metric.name = true)
    (hj : metric.percents[j]? = some (some v))
    (hjc : j < cols.length) :
    ∃ segs, segments cfg rs = some segs ∧
      ∃ s ∈ segs, s.name = metric.name ∧
        ∃ c, cols[j]? = some c ∧
          s.pointCoords[j]? = some (some
            { x := c.x, y := origin - (v / maxValue cfg rs) * 100 / 100 * origin }) := by
  refine ⟨_, segments_eq cfg rs cols ds hcols hds, ?_⟩
  refine ⟨mkSegment cfg.legends cols (rs.axisYOrigin.getD 0) (maxValue cfg rs) ds i metric,
    ?_, rfl, ?_⟩
  · have hmem : (i, metric) ∈ ds.metrics.enum.filter
        (fun q => isMetricFiltered rs q.2.name) := by
      apply List.mem_filter.mpr
      refine ⟨List.mk_mem_enum_iff_getElem?.mpr ?_, hvis⟩
      rw [hm]
    exact List.mem_map_of_mem _ hmem
  · refine ⟨cols.get ⟨j, hjc⟩, by simp, ?_⟩
    have hpcs : (mkSegment cfg.legends cols (rs.axisYOrigin.getD 0) (maxValue cfg rs)
        ds i metric).pointCoords
        = mkPointCoords cols (rs.axisYOrigin.getD 0) (maxValue cfg rs) metric.percents := rfl
    rw [hpcs, horigin]
    simp [mkPointCoords, hj, useAdjustCoordinates, List.getElem?_eq_getElem hjc]

/-- Witness for C2: metric "A" (value 100) at column 0 of `cfgC1`. -/
theorem segments_point_formula_witness :
    rsC1.columnsCoords = some [{ x := 10, y := 0 }] ∧
    rsC1.axisYOrigin = some 200 ∧
    mapGetDataset cfgC1.datasets rsC1.filterIdDataset = some dsC1 ∧
    dsC1.metrics[0]? = some metricA ∧
    isMetricFiltered rsC1 metricA.name = true ∧
    metricA.percents[0]? = some (some 100) ∧
    0 < ([{ x := 10, y := 0 }] : List Coord).length ∧
    (∃ segs, segments cfgC1 rsC1 = some segs ∧
      ∃ s ∈ segs, s.name = metricA.name ∧
        ∃ c, ([{ x := 10, y := 0 }] : List Coord)[0]? = some c ∧
          s.pointCoords[0]? = some (some
            { x := c.x, y := 200 - (100 / maxValue cfgC1 rsC1) * 100 / 100 * 200 })) :=
  ⟨rfl, rfl, rfl, rfl, rfl, rfl, by decide,
    segments_point_formula cfgC1 rsC1 [{ x := 10, y := 0 }] 200 dsC1 metricA 0 0 100
      rfl rfl rfl rfl rfl rfl (by decide)⟩

/-- Toggling off a legend name that is currently active turns the visibility
predicate into the old predicate further requiring the metric name to differ
from the toggled name (provided every active legend name is a configured
legend name). -/
theorem isMetricFiltered_toggle_off (cfg : InitialValue) (rs : ReactiveState) (name : String)
    (hsub : ∀ l ∈ rs.filterLegends, ∃ l2 ∈ cfg.legends, l2.name = l.name)
    (hin : name ∈ rs.filterLegends.map Legend.name) (mname : String) :
    isMetricFiltered (updateFilterLegend cfg rs name) mname
      = (isMetricFiltered rs mname && (mname != name)) := by
  have hfl : (updateFilterLegend cfg rs name).filterLegends
      = cfg.legends.filter (fun legend =>
          decide (legend.name ∈ (rs.filterLegends.map Legend.name).filter
            (fun n => n != name))) := by
    simp only [updateFilterLegend, if_pos hin]
  rw [Bool.eq_iff_iff]
  constructor
  · intro h
    rw [isMetricFiltered, List.any_eq_true] at h
    obtain ⟨l, hl, hlname⟩ := h
    rw [hfl] at hl
    obtain ⟨hlleg, hlmem⟩ := List.mem_filter.mp hl
    rw [decide_eq_true_eq] at hlmem
    obtain ⟨hlin, hlne⟩ := List.mem_filter.mp hlmem
    have hmeq : l.name = mname := by simpa using hlname
    rw [Bool.and_eq_true]
    constructor
    · rw [isMetricFiltered, List.any_eq_true]
      obtain ⟨l0, hl0, hl0n⟩ := List.mem_map.mp (hmeq ▸ hlin)
      exact ⟨l0, hl0, by simp [hl0n]⟩
    · rw [← hmeq]
      exact hlne
  · intro h
    rw [Bool.and_eq_true] at h
    obtain ⟨hvis, hne⟩ := h
    rw [isMetricFiltered, List.any_eq_true] at hvis
    obtain ⟨l0, hl0, hl0n⟩ := hvis
    have hl0name : l0.name = mname := by simpa using hl0n
    obtain ⟨l2, hl2, hl2n⟩ := hsub l0 hl0
    rw [isMetricFiltered, List.any_eq_true, hfl]
    refine ⟨l2, List.mem_filter.mpr ⟨hl2, ?_⟩, by simp [hl2n, hl0name]⟩
    rw [decide_eq_true_eq]
    refine List.mem_filter.mpr ⟨?_, ?_⟩
    · rw [hl2n, hl0name]
      exact List.mem_map.mpr ⟨l0, hl0, hl0name⟩
    · rw [hl2n, hl0name]
      exact hne

/-- Claim C1 (amended): toggling off an active legend removes exactly that
series from the computed segments, and — provided the visible maximum is
unchanged by the removal — every other remaining segment (its point and path
coordinates included) is exactly as before. The proviso is forced: when the
removed series held the maximum, the remaining series are renormalized (see
the counterexample). -/
theorem updateFilterLegend_off_segments (cfg : InitialValue) (rs : ReactiveState)
    (name : String)
    (hsub : ∀ l ∈ rs.filterLegends, ∃ l2 ∈ cfg.legends, l2.name = l.name)
    (hin : name ∈ rs.filterLegends.map Legend.name)
    (hmax : maxValue cfg (updateFilterLegend cfg rs name) = maxValue cfg rs) :
    segments cfg (updateFilterLegend cfg rs name)
      = (segments cfg rs).map (fun segs => segs.filter (fun s => s.name != name)) := by
  rcases hcols : rs.columnsCoords with _ | cols
  · have h1 : segments cfg rs = none := by simp [segments, hcols]
    have h2 : segments cfg (updateFilterLegend cfg rs name) = none := by
      have hc : (updateFilterLegend cfg rs name).columnsCoords = none := hcols
      simp [segments, hc]
    rw [h1, h2]
    rfl
  · rcases hds : mapGetDataset cfg.datasets rs.filterIdDataset with _ | ds
    · have h1 : segments cfg rs = none := by simp [segments, hcols, hds]
      have h2 : segments cfg (updateFilterLegend cfg rs name) = none := by
        have hc : (updateFilterLegend cfg rs name).columnsCoords = some cols := hcols
        have hd : mapGetDataset cfg.datasets
            (updateFilterLegend cfg rs name).filterIdDataset = none := hds
        simp [segments, hc, hd]
      rw [h1, h2]
      rfl
    · have hc : (updateFilterLegend cfg rs name).columnsCoords = some cols := hcols
      have hd : mapGetDataset cfg.datasets
          (updateFilterLegend cfg rs name).filterIdDataset = some ds := hds
      rw [segments_eq cfg rs cols ds hcols hds,
        segments_eq cfg (updateFilterLegend cfg rs name) cols ds hc hd]
      have horig : (updateFilterLegend cfg rs name).axisYOrigin = rs.axisYOrigin := rfl
      rw [hmax, horig, Option.map_some']
      congr 1
      rw [List.filter_map, List.filter_filter]
      congr 1
      apply List.filter_congr
      intro q hq
      rw [isMetricFiltered_toggle_off cfg rs name hsub hin q.2.name, Bool.and_comm]
      rfl

/-- Counterexample to C1 as stated: toggling legend "A" off removes segment
"A" but also rescales segment "B" — its point coordinate changes from
y = 100 to y = 0, because the visible maximum drops from 100 to 50. -/
theorem updateFilterLegend_off_changes_others :
    segments cfgC1 rsC1 = some
      [{ id := "mA", name := "A", color := "red",
         pointCoords := [some { x := 10, y := 0 }], pathCoords := [] },
       { id := "mB", name := "B", color := "blue",
         pointCoords := [some { x := 10, y := 100 }], pathCoords := [] }] ∧
    segments cfgC1 (updateFilterLegend cfgC1 rsC1 "A") = some
      [{ id := "mB", name := "B", color := "blue",
         pointCoords := [some { x := 10, y := 0 }], pathCoords := [] }] ∧
    ([some ({ x := 10, y := 0 } : Coord)] : List (Option Coord))
      ≠ [some { x := 10, y := 100 }] := by
  refine ⟨?_, ?_, ?_⟩
  · rw [segments_eq cfgC1 rsC1 [{ x := 10, y := 0 }] dsC1 rfl rfl]
    have hmax : maxValue cfgC1 rsC1 = 100 := rfl
    have hflt : (dsC1.metrics.enum.filter (fun q => isMetricFiltered rsC1 q.2.name))
        = [(0, metricA), (1, metricB)] := rfl
    have horig : rsC1.axisYOrigin.getD 0 = 200 := rfl
    rw [hmax, hflt, horig]
    simp only [List.map_cons, List.map_nil, Option.some.injEq, List.cons.injEq, and_true]
    norm_num [mkSegment, mkPointCoords, mkPathCoords, useAdjustCoordinates, legendColor,
      mapGetLegend, metricA, metricB, legA, legB, cfgC1, dsC1]
    rfl
  · rw [segments_eq cfgC1 (updateFilterLegend cfgC1 rsC1 "A") [{ x := 10, y := 0 }] dsC1
      rfl rfl]
    have hmax : maxValue cfgC1 (updateFilterLegend cfgC1 rsC1 "A") = 50 := rfl
    have hflt : (dsC1.metrics.enum.filter
        (fun q => isMetricFiltered (updateFilterLegend cfgC1 rsC1 "A") q.2.name))
        = [(1, metricB)] := rfl
    have horig : (updateFilterLegend cfgC1 rsC1 "A").axisYOrigin.getD 0 = 200 := rfl
    rw [hmax, hflt, horig]
    simp only [List.map_cons, List.map_nil, Option.some.injEq, List.cons.injEq, and_true]
    norm_num [mkSegment, mkPointCoords, mkPathCoords, useAdjustCoordinates, legendColor,
      mapGetLegend, metricA, metricB, legA, legB, cfgC1, dsC1]
  · intro h
    have h2 := List.head_eq_of_cons_eq h
    have h3 : ({ x := 10, y := 0 } : Coord) = { x := 10, y := 100 } :=
      Option.some.inj h2
    have h4 : (0 : ℚ) = 100 := congrArg Coord.y h3
    norm_num at h4

/-- Witness for the amended C1: toggling off legend "B", whose values do not
hold the maximum, leaves segment "A" untouched. -/
theorem updateFilterLegend_off_segments_witness :
    (∀ l ∈ rsC1.filterLegends, ∃ l2 ∈ cfgC1.legends, l2.name = l.name) ∧
    "B" ∈ rsC1.filterLegends.map Legend.name ∧
    maxValue cfgC1 (updateFilterLegend cfgC1 rsC1 "B") = maxValue cfgC1 rsC1 ∧
    segments cfgC1 (updateFilterLegend cfgC1 rsC1 "B")
      = (segments cfgC1 rsC1).map (fun segs => segs.filter (fun s => s.name != "B")) :=
  ⟨by decide, by decide, rfl,
    updateFilterLegend_off_segments cfgC1 rsC1 "B" (by decide) (by decide) rfl⟩

/-- Witness for C4: selecting dataset "d" of `cfgC1` with both legends
active. -/
theorem updateIdDataset_maxValue_witness :
    mapGetDataset cfgC1.datasets "d" = some dsC1 ∧
    visibleValues rsC1 dsC1 ≠ [] ∧
    (maxValue cfgC1 (updateIdDataset rsC1 "d") ∈ visibleValues rsC1 dsC1 ∧
      (∀ v ∈ visibleValues rsC1 dsC1, v ≤ maxValue cfgC1 (updateIdDataset rsC1 "d")) ∧
      (∀ v : ℚ, v ∈ visibleValues rsC1 dsC1 ↔
        ∃ metric ∈ dsC1.metrics, isMetricFiltered rsC1 metric.name = true ∧
          some v ∈ metric.percents)) :=
  ⟨rfl, by decide, updateIdDataset_maxValue cfgC1 rsC1 "d" dsC1 rfl (by decide)⟩

end ChartLines
